import Mathlib

/-!
Shallow embedding of the MAPIP DAG-to-DAG instruction selector
(MAPIPISelDAGToDAG.cpp): the `MAPIPISelAddressMode` accumulator and the
functions `MatchWrapper`, `MatchAddressBase`, `MatchAddress`, `SelectAddr`,
`SelectInlineAsmMemoryOperand` and `Select`.

Machine integers are modelled as `Int` with explicit wrap-around where the
C++ stores into a fixed-width field (`Disp` is `int16_t`, wrapped by
`toInt16` at every accumulation).  The `SelectionDAG` bit-analysis query
`MaskedValueIsZero` is an external collaborator and enters as an oracle
parameter `mvz`.  Nodes are a tree-shaped term type; node properties that
live in the surrounding graph (the value type read by `SelectAddr`, the
use count read by `Select`) are passed as explicit arguments.
-/

namespace MapipISel

/-- Value types (`MVT`/`EVT`) as far as this selector distinguishes them. -/
inductive EVT
  | i16
  | i32
  | otherVT (w : Nat)
deriving DecidableEq, Repr

/-- Payload of a `MAPIPISD::Wrapper` node: the operand `N.getOperand(0)` that
`MatchWrapper` inspects is (per legalization) one of these five symbolic
reference kinds.  Globals, pooled constants and block addresses are
identified by an abstract id. -/
inductive SymbolOperand
  | globalAddress (gv : Nat) (offset : Int)
  | constantPool (cp : Nat) (align : Nat) (offset : Int)
  | externalSymbol (es : String)
  | jumpTable (index : Int)
  | blockAddress (ba : Nat)
deriving DecidableEq, Repr

/-- DAG nodes, as far as `MatchAddress`/`Select` pattern-match on them:
integer constants (payload = `getSExtValue`), wrapper nodes, frame indices
(with the node's value type), `ISD::ADD`, `ISD::OR`, already-selected
machine nodes, and every other opcode collapsed into `otherNode`. -/
inductive SDNode
  | constant (val : Int)
  | wrapper (sym : SymbolOperand)
  | frameIndex (fi : Int) (vt : EVT)
  | add (a b : SDNode)
  | or (a b : SDNode)
  | machine (op : Nat)
  | otherNode (op : Nat)
deriving DecidableEq, Repr

/-- Discriminant of `MAPIPISelAddressMode::BaseType`. -/
inductive BaseType
  | RegBase
  | FrameIndexBase
deriving DecidableEq, Repr

/-- `MAPIPISelAddressMode`.  `baseReg` models `Base.Reg` (`none` = null
SDValue), `baseFrameIndex` models `Base.FrameIndex`, `disp` the `int16_t`
displacement, and `gv`/`cp`/`blockAddr`/`es`/`jt` the symbolic-kind fields
(`none` resp. `-1` = unset). -/
structure AddressMode where
  baseType : BaseType
  baseReg : Option SDNode
  baseFrameIndex : Int
  disp : Int
  gv : Option Nat
  cp : Option Nat
  blockAddr : Option Nat
  es : Option String
  jt : Int
  align : Nat
deriving DecidableEq, Repr

/-- The freshly-constructed `MAPIPISelAddressMode()`:
`BaseType(RegBase), Disp(0), GV(0), CP(0), BlockAddr(0), ES(0), JT(-1),
Align(0)` with a null `Base.Reg`. -/
def initAM : AddressMode :=
  { baseType := BaseType.RegBase
    baseReg := none
    baseFrameIndex := 0
    disp := 0
    gv := none
    cp := none
    blockAddr := none
    es := none
    jt := -1
    align := 0 }

/-- Wrap-around of an integer into the `int16_t` range `[-32768, 32767]`,
the effect of storing into `AM.Disp`. -/
def toInt16 (x : Int) : Int :=
  (x + 32768) % 65536 - 32768

/-- `MAPIPISelAddressMode::hasSymbolicDisplacement`:
`GV != 0 || CP != 0 || ES != 0 || JT != -1`.
(Note: the C++ does not test `BlockAddr` here.) -/
def hasSymbolicDisplacement (am : AddressMode) : Bool :=
  am.gv.isSome || am.cp.isSome || am.es.isSome || am.jt != -1

/-- `MAPIPDAGToDAGISel::MatchWrapper`, applied to the wrapper's payload
operand.  Returns the C++ boolean (true = match failure) together with the
final state of the by-reference `AM` argument. -/
def matchWrapper (sym : SymbolOperand) (am : AddressMode) : Bool × AddressMode :=
  if hasSymbolicDisplacement am then
    (true, am)
  else
    match sym with
    | .globalAddress g off =>
        (false, { am with gv := some g, disp := toInt16 (am.disp + off) })
    | .constantPool c al off =>
        (false, { am with cp := some c, align := al, disp := toInt16 (am.disp + off) })
    | .externalSymbol s =>
        (false, { am with es := some s })
    | .jumpTable j =>
        (false, { am with jt := j })
    | .blockAddress b =>
        (false, { am with blockAddr := some b })

/-- `MAPIPDAGToDAGISel::MatchAddressBase`: commit `n` as the register base
unless a base is already occupied. -/
def matchAddressBase (n : SDNode) (am : AddressMode) : Bool × AddressMode :=
  if am.baseType != BaseType.RegBase || am.baseReg.isSome then
    (true, am)
  else
    (false, { am with baseType := BaseType.RegBase, baseReg := some n })

/-- `MAPIPDAGToDAGISel::MatchAddress`.  `mvz x c` is the oracle for
`CurDAG->MaskedValueIsZero(x, c)`.  The result pairs the C++ return value
(true = failure) with the final state of `AM`. -/
def matchAddress (mvz : SDNode → Int → Bool) :
    SDNode → AddressMode → Bool × AddressMode
  | .constant v, am =>
      (false, { am with disp := toInt16 (am.disp + v) })
  | .wrapper sym, am =>
      let t := matchWrapper sym am
      if t.1 = false then (false, t.2)
      else matchAddressBase (.wrapper sym) t.2
  | .frameIndex fi vt, am =>
      if am.baseType == BaseType.RegBase && am.baseReg.isNone then
        (false, { am with baseType := BaseType.FrameIndexBase, baseFrameIndex := fi })
      else matchAddressBase (.frameIndex fi vt) am
  | .add a b, am =>
      let t1 := matchAddress mvz a am
      let r1 : Option AddressMode :=
        if t1.1 = false then
          let t2 := matchAddress mvz b t1.2
          if t2.1 = false then some t2.2 else none
        else none
      match r1 with
      | some am2 => (false, am2)
      | none =>
          let s1 := matchAddress mvz b am
          let r2 : Option AddressMode :=
            if s1.1 = false then
              let s2 := matchAddress mvz a s1.2
              if s2.1 = false then some s2.2 else none
            else none
          match r2 with
          | some am2 => (false, am2)
          | none => matchAddressBase (.add a b) am
  | .or a b, am =>
      (match b with
      | .constant c =>
          let t := matchAddress mvz a am
          if t.1 = false && t.2.gv.isNone && mvz a c then
            (false, { t.2 with disp := toInt16 (t.2.disp + c) })
          else matchAddressBase (.or a b) am
      | _ => matchAddressBase (.or a b) am)
  | .machine op, am => matchAddressBase (.machine op) am
  | .otherNode op, am => matchAddressBase (.otherNode op) am

/-- Operand values (`SDValue`s) produced by the synthesizer and selector:
`reg` is `CurDAG->getRegister`, `node` passes an existing node through as
operand, the rest are the `getTarget*`/`getBlockAddress` forms. -/
inductive Operand
  | reg (r : Nat) (vt : EVT)
  | node (n : SDNode)
  | targetFrameIndex (fi : Int) (vt : EVT)
  | targetGlobalAddress (gv : Nat) (vt : EVT) (offset : Int)
  | targetConstantPool (cp : Nat) (vt : EVT) (align : Nat) (offset : Int)
  | targetExternalSymbol (es : String) (vt : EVT)
  | targetJumpTable (jt : Int) (vt : EVT)
  | blockAddress (ba : Nat) (vt : EVT)
  | targetConstant (val : Int) (vt : EVT)
deriving DecidableEq, Repr

/-- The operand-synthesis tail of `MAPIPDAGToDAGISel::SelectAddr` (after
`MatchAddress` has succeeded): build the base operand (zero register if the
register base is null, frame reference at pointer type if frame-based) and
the displacement operand (first-match chain GV, CP, ES, JT, BlockAddr,
numeric).  `ptrTy` is `TLI.getPointerTy()`, `vt` is `N.getValueType()`. -/
def synthOperands (ptrTy vt : EVT) (am : AddressMode) : Operand × Operand :=
  let base :=
    if am.baseType = BaseType.FrameIndexBase then
      Operand.targetFrameIndex am.baseFrameIndex ptrTy
    else
      match am.baseReg with
      | some r => Operand.node r
      | none => Operand.reg 0 vt
  let dispOp :=
    match am.gv with
    | some g => Operand.targetGlobalAddress g EVT.i16 am.disp
    | none =>
        match am.cp with
        | some c => Operand.targetConstantPool c EVT.i16 am.align am.disp
        | none =>
            match am.es with
            | some s => Operand.targetExternalSymbol s EVT.i16
            | none =>
                if am.jt != -1 then Operand.targetJumpTable am.jt EVT.i16
                else
                  match am.blockAddr with
                  | some b => Operand.blockAddress b EVT.i32
                  | none => Operand.targetConstant am.disp EVT.i16
  (base, dispOp)

/-- `MAPIPDAGToDAGISel::SelectAddr`: run `MatchAddress` on a fresh
`MAPIPISelAddressMode`; on success synthesize the two operands.  The C++
returns false (here `none`) when the match fails. -/
def selectAddr (mvz : SDNode → Int → Bool) (ptrTy vt : EVT) (n : SDNode) :
    Option (Operand × Operand) :=
  let t := matchAddress mvz n initAM
  if t.1 = true then none
  else some (synthOperands ptrTy vt t.2)

/-- `MAPIPDAGToDAGISel::SelectInlineAsmMemoryOperand`: only constraint code
`m` is handled; the C++ returns true (here `none`) for any other code or
when `SelectAddr` fails, and otherwise pushes the two operands into
`OutOps` (here the returned list). -/
def selectInlineAsmMemoryOperand (mvz : SDNode → Int → Bool) (ptrTy vt : EVT)
    (op : SDNode) (constraintCode : Char) : Option (List Operand) :=
  match constraintCode with
  | 'm' =>
      match selectAddr mvz ptrTy vt op with
      | none => none
      | some (b, d) => some [b, d]
  | _ => none

/-- Target machine opcodes used by `Select`. -/
inductive MachineOpcode
  | ADD16ri
deriving DecidableEq, Repr

/-- Outcome of `MAPIPDAGToDAGISel::Select` on one node: `unchanged` models
returning NULL for an already-machine node, `reused` models
`CurDAG->SelectNodeTo` (the original node's identity is morphed in place),
`allocated` models `CurDAG->getMachineNode` (a fresh node, the original
stays valid), and `delegated` models falling through to the generated
`SelectCode` table matcher. -/
inductive SelectOutcome
  | unchanged
  | reused (op : MachineOpcode) (vt : EVT) (ops : List Operand)
  | allocated (op : MachineOpcode) (vt : EVT) (ops : List Operand)
  | delegated
deriving DecidableEq, Repr

/-- `MAPIPDAGToDAGISel::Select`.  `hasOneUse` is `Node->hasOneUse()`, a
property of the node in its graph.  `none` models the assertion failure
when a frame-index node does not have type `i16`. -/
def select (n : SDNode) (hasOneUse : Bool) : Option SelectOutcome :=
  match n with
  | .machine _ => some SelectOutcome.unchanged
  | .frameIndex fi vt =>
      if vt = EVT.i16 then
        if hasOneUse then
          some (SelectOutcome.reused MachineOpcode.ADD16ri EVT.i16
            [Operand.targetFrameIndex fi EVT.i16, Operand.targetConstant 0 EVT.i16])
        else
          some (SelectOutcome.allocated MachineOpcode.ADD16ri EVT.i16
            [Operand.targetFrameIndex fi EVT.i16, Operand.targetConstant 0 EVT.i16])
      else none
  | _ => some SelectOutcome.delegated

end MapipISel

namespace MapipISel

/-! Spec-side definitions used to state the claims. -/

/-- A base is committed when the mode is frame-based or the register base
already holds a node — exactly the occupancy test of `MatchAddressBase`. -/
def baseCommitted (am : AddressMode) : Bool :=
  am.baseType != BaseType.RegBase || am.baseReg.isSome

/-- The expression is built solely from integer-constant leaves and
addition nodes. -/
def constAddOnly : SDNode → Bool
  | .constant _ => true
  | .add a b => constAddOnly a && constAddOnly b
  | _ => false

/-- Sum of all constant leaves of an expression. -/
def sumConsts : SDNode → Int
  | .constant v => v
  | .add a b => sumConsts a + sumConsts b
  | _ => 0

/-- One operand order of the `ISD::ADD` retry scheme: starting from the
snapshot `am`, fold `x`, then fold `y` against the updated mode; `none`
when the order does not fully succeed. -/
def foldFirstThenSecond (mvz : SDNode → Int → Bool) (x y : SDNode)
    (am : AddressMode) : Option AddressMode :=
  let t1 := matchAddress mvz x am
  if t1.1 = false then
    let t2 := matchAddress mvz y t1.2
    if t2.1 = false then some t2.2 else none
  else none

/-! Sample address modes used by witnesses. -/

def amFrame5 : AddressMode :=
  { initAM with baseType := BaseType.FrameIndexBase, baseFrameIndex := 5 }

def amRegNode : AddressMode :=
  { initAM with baseReg := some (.otherNode 9) }

def amGV : AddressMode := { initAM with gv := some 4, disp := 6 }

def amCP : AddressMode := { initAM with cp := some 2, align := 4, disp := 1 }

def amES : AddressMode := { initAM with es := some "sym" }

def amJT : AddressMode := { initAM with jt := 3 }

def amBA : AddressMode := { initAM with blockAddr := some 8 }

/-! Helper lemmas. -/

theorem toInt16_toInt16_add (x y : Int) :
    toInt16 (toInt16 x + y) = toInt16 (x + y) := by
  simp only [toInt16]
  omega

theorem matchAddressBase_uncommitted (n : SDNode) (am : AddressMode)
    (h1 : am.baseType = BaseType.RegBase) (h2 : am.baseReg = none) :
    matchAddressBase n am
      = (false, { am with baseType := BaseType.RegBase, baseReg := some n }) := by
  simp [matchAddressBase, h1, h2]

theorem matchAddressBase_committed (n : SDNode) (am : AddressMode)
    (h : baseCommitted am = true) :
    matchAddressBase n am = (true, am) := by
  unfold baseCommitted at h
  simp [matchAddressBase, h]

theorem matchWrapper_base (sym : SymbolOperand) (am : AddressMode) :
    (matchWrapper sym am).2.baseType = am.baseType
    ∧ (matchWrapper sym am).2.baseReg = am.baseReg
    ∧ (matchWrapper sym am).2.baseFrameIndex = am.baseFrameIndex := by
  by_cases hs : hasSymbolicDisplacement am = true
  · simp [matchWrapper, hs]
  · simp only [Bool.not_eq_true] at hs
    cases sym <;> simp [matchWrapper, hs]

theorem matchAddress_success (mvz : SDNode → Int → Bool) (n : SDNode) :
    ∀ am : AddressMode,
      am.baseType = BaseType.RegBase → am.baseReg = none →
      (matchAddress mvz n am).1 = false := by
  induction n with
  | constant v => intro am h1 h2; rfl
  | wrapper sym =>
      intro am h1 h2
      simp only [matchAddress]
      by_cases hs : hasSymbolicDisplacement am = true
      · simp [matchWrapper, hs, matchAddressBase, h1, h2]
      · simp only [Bool.not_eq_true] at hs
        cases sym <;> simp [matchWrapper, hs]
  | frameIndex fi vt =>
      intro am h1 h2
      simp [matchAddress, h1, h2, matchAddressBase]
  | add a b iha ihb =>
      intro am h1 h2
      simp only [matchAddress]
      split
      · rfl
      · split
        · rfl
        · simp [matchAddressBase_uncommitted _ _ h1 h2]
  | or a b iha ihb =>
      intro am h1 h2
      simp only [matchAddress]
      cases b with
      | constant c =>
          simp only []
          split
          · rfl
          · simp [matchAddressBase_uncommitted _ _ h1 h2]
      | _ => simp [matchAddressBase_uncommitted _ _ h1 h2]
  | machine op =>
      intro am h1 h2
      simp [matchAddress, matchAddressBase_uncommitted _ _ h1 h2]
  | otherNode op =>
      intro am h1 h2
      simp [matchAddress, matchAddressBase_uncommitted _ _ h1 h2]

theorem matchAddress_preserves_base (mvz : SDNode → Int → Bool) (n : SDNode) :
    ∀ am : AddressMode, baseCommitted am = true →
      (matchAddress mvz n am).2.baseType = am.baseType
      ∧ (matchAddress mvz n am).2.baseReg = am.baseReg
      ∧ (matchAddress mvz n am).2.baseFrameIndex = am.baseFrameIndex := by
  induction n with
  | constant v => intro am h; exact ⟨rfl, rfl, rfl⟩
  | wrapper sym =>
      intro am h
      simp only [matchAddress]
      split
      · exact matchWrapper_base sym am
      · have hb := matchWrapper_base sym am
        rw [matchAddressBase_committed _ _ (by unfold baseCommitted at h ⊢; simp_all)]
        exact hb
  | frameIndex fi vt =>
      intro am h
      unfold baseCommitted at h
      simp only [matchAddress]
      split
      · simp_all
      · rw [matchAddressBase_committed _ _ (by unfold baseCommitted; exact h)]
        exact ⟨rfl, rfl, rfl⟩
  | add a b iha ihb =>
      intro am h
      simp only [matchAddress]
      split
      · next am2 heq =>
          split at heq
          · split at heq
            · injection heq with heq2
              subst heq2
              have p1 := iha am h
              have p2 := ihb (matchAddress mvz a am).2
                (by unfold baseCommitted at h ⊢; simp_all [p1.1, p1.2.1])
              exact ⟨p2.1.trans p1.1, p2.2.1.trans p1.2.1, p2.2.2.trans p1.2.2⟩
            · exact absurd heq (by simp)
          · exact absurd heq (by simp)
      · split
        · next am2 heq =>
            split at heq
            · split at heq
              · injection heq with heq2
                subst heq2
                have p1 := ihb am h
                have p2 := iha (matchAddress mvz b am).2
                  (by unfold baseCommitted at h ⊢; simp_all [p1.1, p1.2.1])
                exact ⟨p2.1.trans p1.1, p2.2.1.trans p1.2.1, p2.2.2.trans p1.2.2⟩
              · exact absurd heq (by simp)
            · exact absurd heq (by simp)
        · rw [matchAddressBase_committed _ _ h]
          exact ⟨rfl, rfl, rfl⟩
  | or a b iha ihb =>
      intro am h
      simp only [matchAddress]
      cases b with
      | constant c =>
          simp only []
          split
          · have p1 := iha am h
            exact ⟨p1.1, p1.2.1, p1.2.2⟩
          · rw [matchAddressBase_committed _ _ h]
            exact ⟨rfl, rfl, rfl⟩
      | _ => simp [matchAddressBase_committed _ _ h]
  | machine op =>
      intro am h
      simp only [matchAddress]
      rw [matchAddressBase_committed _ _ h]
      exact ⟨rfl, rfl, rfl⟩
  | otherNode op =>
      intro am h
      simp only [matchAddress]
      rw [matchAddressBase_committed _ _ h]
      exact ⟨rfl, rfl, rfl⟩

theorem matchAddress_constAddOnly (mvz : SDNode → Int → Bool) (n : SDNode) :
    ∀ am : AddressMode, constAddOnly n = true →
      matchAddress mvz n am
        = (false, { am with disp := toInt16 (am.disp + sumConsts n) }) := by
  induction n with
  | constant v => intro am h; rfl
  | add a b iha ihb =>
      intro am h
      simp only [constAddOnly, Bool.and_eq_true] at h
      simp only [matchAddress, sumConsts]
      rw [iha am h.1]
      simp only []
      rw [ihb _ h.2]
      simp only [reduceIte]
      rw [toInt16_toInt16_add, ← add_assoc]
  | wrapper sym => intro am h; simp [constAddOnly] at h
  | frameIndex fi vt => intro am h; simp [constAddOnly] at h
  | or a b iha ihb => intro am h; simp [constAddOnly] at h
  | machine op => intro am h; simp [constAddOnly] at h
  | otherNode op => intro am h; simp [constAddOnly] at h

end MapipISel

namespace MapipISel

/-- Claim C1 (evaluation at the failing input): `hasSymbolicDisplacement`
does not test `BlockAddr`, so after a wrapper carrying a block address has
populated the code-label field, a second `MatchWrapper` call with a
global-address wrapper is accepted rather than rejected, leaving two
symbolic-kind fields non-empty at once.  Exercised both through a direct
pair of `MatchWrapper` calls and through one `MatchAddress` run on
`ADD(Wrapper(BlockAddress 7), Wrapper(GlobalAddress 3))`. -/
theorem c1_second_symbolic_kind_accepted :
    hasSymbolicDisplacement { initAM with blockAddr := some 7 } = false
    ∧ matchWrapper (.globalAddress 3 0) { initAM with blockAddr := some 7 }
        = (false, { initAM with blockAddr := some 7, gv := some 3 })
    ∧ (matchAddress (fun _ _ => false)
          (.add (.wrapper (.blockAddress 7)) (.wrapper (.globalAddress 3 0))) initAM).1
        = false
    ∧ (matchAddress (fun _ _ => false)
          (.add (.wrapper (.blockAddress 7)) (.wrapper (.globalAddress 3 0))) initAM).2.blockAddr
        = some 7
    ∧ (matchAddress (fun _ _ => false)
          (.add (.wrapper (.blockAddress 7)) (.wrapper (.globalAddress 3 0))) initAM).2.gv
        = some 3 := by
  decide

/-- Claim C2 counterexample: with a bit-disjointness oracle that answers
true on every query, `OR(Wrapper(GlobalAddress 0 0), Constant 3)` is still
not folded as an addition — folding the left operand picks up the global
symbol, the `AM.GV == NULL` guard rejects the fold, the mode is rolled
back, and the whole OR node is committed as the register base with
displacement 0 (the claim's iff would require the fold, i.e. displacement
3 with the global kept). -/
theorem c2_or_iff_counterexample :
    ((fun (_ : SDNode) (_ : Int) => true) (.wrapper (.globalAddress 0 0)) 3 = true)
    ∧ matchAddress (fun _ _ => true)
          (.or (.wrapper (.globalAddress 0 0)) (.constant 3)) initAM
        = (false, { initAM with
            baseReg := some (.or (.wrapper (.globalAddress 0 0)) (.constant 3)) })
    ∧ ¬ ((matchAddress (fun _ _ => true)
          (.or (.wrapper (.globalAddress 0 0)) (.constant 3)) initAM).2.disp = 3) := by
  decide

/-- Claim C2 (amended): for an OR whose right operand is the constant `c`,
`MatchAddress` folds the OR as an addition iff folding the left operand
succeeds, the resulting mode has no global-symbol displacement, and the
disjointness query is true; in every other case — in particular whenever
the query is false — the mode is restored to its pre-attempt value and the
whole OR node is handed to the generic base rule. -/
theorem c2_or_fold_characterization (mvz : SDNode → Int → Bool) (a : SDNode)
    (c : Int) (am : AddressMode) :
    (mvz a c = false →
      matchAddress mvz (.or a (.constant c)) am
        = matchAddressBase (.or a (.constant c)) am)
    ∧ ((matchAddress mvz a am).1 = false → (matchAddress mvz a am).2.gv = none →
        mvz a c = true →
        matchAddress mvz (.or a (.constant c)) am
          = (false, { (matchAddress mvz a am).2 with
              disp := toInt16 ((matchAddress mvz a am).2.disp + c) }))
    ∧ (((matchAddress mvz a am).1 = true ∨ (matchAddress mvz a am).2.gv ≠ none
          ∨ mvz a c = false) →
        matchAddress mvz (.or a (.constant c)) am
          = matchAddressBase (.or a (.constant c)) am) := by
  refine ⟨?_, ?_, ?_⟩
  · intro h
    simp [matchAddress, h]
  · intro h1 h2 h3
    simp [matchAddress, h1, h2, h3]
  · intro h
    rcases h with h | h | h
    · simp [matchAddress, h]
    · simp [matchAddress, Option.isNone_iff_eq_none, h]
    · simp [matchAddress, h]

/-- Claim C2 witness: each branch of the characterization exercised at a
concrete input. -/
theorem c2_or_fold_witness :
    (matchAddress (fun _ _ => false) (.or (.constant 1) (.constant 2)) initAM
      = matchAddressBase (.or (.constant 1) (.constant 2)) initAM)
    ∧ (matchAddress (fun _ _ => true) (.or (.constant 1) (.constant 2)) initAM
      = (false, { (matchAddress (fun _ _ => true) (.constant 1) initAM).2 with
          disp := toInt16 ((matchAddress (fun _ _ => true) (.constant 1) initAM).2.disp + 2) }))
    ∧ (matchAddress (fun _ _ => true)
          (.or (.wrapper (.globalAddress 0 0)) (.constant 3)) initAM
      = matchAddressBase (.or (.wrapper (.globalAddress 0 0)) (.constant 3)) initAM) :=
  ⟨(c2_or_fold_characterization (fun _ _ => false) (.constant 1) 2 initAM).1 rfl,
   (c2_or_fold_characterization (fun _ _ => true) (.constant 1) 2 initAM).2.1 rfl rfl rfl,
   (c2_or_fold_characterization (fun _ _ => true)
      (.wrapper (.globalAddress 0 0)) 3 initAM).2.2 (Or.inr (Or.inl (by decide)))⟩

end MapipISel

namespace MapipISel

/-- Claim C3: on an `ISD::ADD` node, `MatchAddress` first tries to fold
operand 0 then operand 1 against a snapshot of the mode; if that order
does not fully succeed it restores the snapshot and tries operand 1 then
operand 0; and when both orders fail it restores the snapshot and hands
the whole addition node to the generic base rule (which commits it as the
register base whenever no base is committed in the snapshot). -/
theorem c3_add_tries_both_orders (mvz : SDNode → Int → Bool) (a b : SDNode)
    (am : AddressMode) :
    (matchAddress mvz (.add a b) am =
      match foldFirstThenSecond mvz a b am with
      | some am2 => (false, am2)
      | none =>
          match foldFirstThenSecond mvz b a am with
          | some am2 => (false, am2)
          | none => matchAddressBase (.add a b) am)
    ∧ (foldFirstThenSecond mvz a b am = none → foldFirstThenSecond mvz b a am = none →
        am.baseType = BaseType.RegBase → am.baseReg = none →
        matchAddress mvz (.add a b) am
          = (false, { am with baseType := BaseType.RegBase, baseReg := some (.add a b) })) := by
  constructor
  · rfl
  · intro h1 h2 h3 h4
    have e : matchAddress mvz (.add a b) am
        = (match foldFirstThenSecond mvz a b am with
          | some am2 => (false, am2)
          | none =>
              match foldFirstThenSecond mvz b a am with
              | some am2 => (false, am2)
              | none => matchAddressBase (.add a b) am) := rfl
    rw [e, h1, h2]
    exact matchAddressBase_uncommitted _ _ h3 h4

/-- Claim C3 witness: `ADD(FrameIndex 0, FrameIndex 1)` fails in both
operand orders (the second frame index cannot fold once the first has
taken the base), so the whole addition is committed as the register
base. -/
theorem c3_add_witness :
    foldFirstThenSecond (fun _ _ => false) (.frameIndex 0 .i16) (.frameIndex 1 .i16) initAM = none
    ∧ foldFirstThenSecond (fun _ _ => false) (.frameIndex 1 .i16) (.frameIndex 0 .i16) initAM = none
    ∧ matchAddress (fun _ _ => false)
        (.add (.frameIndex 0 .i16) (.frameIndex 1 .i16)) initAM
      = (false, { initAM with
          baseType := BaseType.RegBase,
          baseReg := some (.add (.frameIndex 0 .i16) (.frameIndex 1 .i16)) }) :=
  ⟨by decide, by decide,
   (c3_add_tries_both_orders (fun _ _ => false) (.frameIndex 0 .i16)
      (.frameIndex 1 .i16) initAM).2 (by decide) (by decide) rfl rfl⟩

/-- Claim C4: the Base Finalizer (`MatchAddressBase`) fails exactly when a
base is already committed (a frame-slot base, or a register base holding a
node), otherwise commits the given node as register base; and once a base
is committed, no `MatchAddress` fold ever changes the base fields. -/
theorem c4_base_commit_protocol (mvz : SDNode → Int → Bool) :
    (∀ (n : SDNode) (am : AddressMode), baseCommitted am = true →
      matchAddressBase n am = (true, am))
    ∧ (∀ (n : SDNode) (am : AddressMode), baseCommitted am = false →
        matchAddressBase n am
          = (false, { am with baseType := BaseType.RegBase, baseReg := some n }))
    ∧ (∀ (n : SDNode) (am : AddressMode), baseCommitted am = true →
        (matchAddress mvz n am).2.baseType = am.baseType
        ∧ (matchAddress mvz n am).2.baseReg = am.baseReg
        ∧ (matchAddress mvz n am).2.baseFrameIndex = am.baseFrameIndex) := by
  refine ⟨fun n am h => matchAddressBase_committed n am h, ?_,
    fun n am h => matchAddress_preserves_base mvz n am h⟩
  intro n am h
  unfold baseCommitted at h
  simp [matchAddressBase, h]

/-- Claim C4 witness: the finalizer rejects a frame-committed and a
register-committed mode, commits on the fresh mode, and a fold over a
committed mode leaves the base fields intact. -/
theorem c4_base_commit_witness :
    matchAddressBase (.otherNode 1) amFrame5 = (true, amFrame5)
    ∧ matchAddressBase (.otherNode 1) amRegNode = (true, amRegNode)
    ∧ matchAddressBase (.otherNode 1) initAM
      = (false, { initAM with baseType := BaseType.RegBase, baseReg := some (.otherNode 1) })
    ∧ ((matchAddress (fun _ _ => false) (.frameIndex 2 .i16) amFrame5).2.baseType
          = amFrame5.baseType
      ∧ (matchAddress (fun _ _ => false) (.frameIndex 2 .i16) amFrame5).2.baseReg
          = amFrame5.baseReg
      ∧ (matchAddress (fun _ _ => false) (.frameIndex 2 .i16) amFrame5).2.baseFrameIndex
          = amFrame5.baseFrameIndex) :=
  ⟨(c4_base_commit_protocol (fun _ _ => false)).1 (.otherNode 1) amFrame5 (by decide),
   (c4_base_commit_protocol (fun _ _ => false)).1 (.otherNode 1) amRegNode (by decide),
   (c4_base_commit_protocol (fun _ _ => false)).2.1 (.otherNode 1) initAM (by decide),
   (c4_base_commit_protocol (fun _ _ => false)).2.2 (.frameIndex 2 .i16) amFrame5 (by decide)⟩

/-- Claim C5: an address expression built solely from integer-constant
leaves and additions always matches from a fresh mode, producing a
displacement equal to the sum of all constant leaves wrapped to the
16-bit signed immediate width, with the base left empty and no symbolic
reference (including the block-address field) set. -/
theorem c5_const_add_expression (mvz : SDNode → Int → Bool) (n : SDNode)
    (h : constAddOnly n = true) :
    matchAddress mvz n initAM = (false, { initAM with disp := toInt16 (sumConsts n) })
    ∧ (matchAddress mvz n initAM).2.baseType = BaseType.RegBase
    ∧ (matchAddress mvz n initAM).2.baseReg = none
    ∧ hasSymbolicDisplacement (matchAddress mvz n initAM).2 = false
    ∧ (matchAddress mvz n initAM).2.blockAddr = none := by
  have key := matchAddress_constAddOnly mvz n initAM h
  have h0 : initAM.disp + sumConsts n = sumConsts n := by
    simp [initAM]
  rw [h0] at key
  rw [key]
  exact ⟨rfl, rfl, rfl, rfl, rfl⟩

/-- Claim C5 witness: `ADD(Constant 40000, Constant 40000)` sums to 80000,
which wraps to 14464 in the signed 16-bit displacement. -/
theorem c5_const_add_witness :
    constAddOnly (.add (.constant 40000) (.constant 40000)) = true
    ∧ matchAddress (fun _ _ => false) (.add (.constant 40000) (.constant 40000)) initAM
      = (false, { initAM with
          disp := toInt16 (sumConsts (.add (.constant 40000) (.constant 40000))) })
    ∧ toInt16 (sumConsts (.add (.constant 40000) (.constant 40000))) = 14464 :=
  ⟨by decide,
   (c5_const_add_expression (fun _ _ => false)
      (.add (.constant 40000) (.constant 40000)) (by decide)).1,
   by decide⟩

end MapipISel

namespace MapipISel

/-- Claim C6: the operand synthesizer produces, as base, the zero-register
placeholder when the register base is unset, the register base node when
set, or a target-frame-reference at pointer width for a frame-slot base;
and, as displacement, exactly one of six forms by first-match precedence
global-symbol > constant-pool > external-symbol > jump-table > code-label
> plain numeric displacement. -/
theorem c6_synthesize_operands (ptrTy vt : EVT) (am : AddressMode) :
    ((am.baseType = BaseType.FrameIndexBase →
        (synthOperands ptrTy vt am).1 = Operand.targetFrameIndex am.baseFrameIndex ptrTy)
    ∧ (am.baseType = BaseType.RegBase → am.baseReg = none →
        (synthOperands ptrTy vt am).1 = Operand.reg 0 vt)
    ∧ (∀ r, am.baseType = BaseType.RegBase → am.baseReg = some r →
        (synthOperands ptrTy vt am).1 = Operand.node r))
    ∧ ((∀ g, am.gv = some g →
        (synthOperands ptrTy vt am).2 = Operand.targetGlobalAddress g EVT.i16 am.disp)
    ∧ (∀ c, am.gv = none → am.cp = some c →
        (synthOperands ptrTy vt am).2 = Operand.targetConstantPool c EVT.i16 am.align am.disp)
    ∧ (∀ s, am.gv = none → am.cp = none → am.es = some s →
        (synthOperands ptrTy vt am).2 = Operand.targetExternalSymbol s EVT.i16)
    ∧ (am.gv = none → am.cp = none → am.es = none → am.jt ≠ -1 →
        (synthOperands ptrTy vt am).2 = Operand.targetJumpTable am.jt EVT.i16)
    ∧ (∀ b, am.gv = none → am.cp = none → am.es = none → am.jt = -1 → am.blockAddr = some b →
        (synthOperands ptrTy vt am).2 = Operand.blockAddress b EVT.i32)
    ∧ (am.gv = none → am.cp = none → am.es = none → am.jt = -1 → am.blockAddr = none →
        (synthOperands ptrTy vt am).2 = Operand.targetConstant am.disp EVT.i16)) := by
  refine ⟨⟨?_, ?_, ?_⟩, ?_, ?_, ?_, ?_, ?_, ?_⟩
  · intro h; simp [synthOperands, h]
  · intro h1 h2; simp [synthOperands, h1, h2]
  · intro r h1 h2; simp [synthOperands, h1, h2]
  · intro g h; simp [synthOperands, h]
  · intro c h1 h2; simp [synthOperands, h1, h2]
  · intro s h1 h2 h3; simp [synthOperands, h1, h2, h3]
  · intro h1 h2 h3 h4; simp [synthOperands, h1, h2, h3, h4]
  · intro b h1 h2 h3 h4 h5; simp [synthOperands, h1, h2, h3, h4, h5]
  · intro h1 h2 h3 h4 h5; simp [synthOperands, h1, h2, h3, h4, h5]

/-- Claim C6 witness: every branch of the synthesizer exercised on a
concrete address mode. -/
theorem c6_synthesize_witness :
    (synthOperands EVT.i16 EVT.i16 amFrame5).1 = Operand.targetFrameIndex 5 EVT.i16
    ∧ (synthOperands EVT.i16 EVT.i16 initAM).1 = Operand.reg 0 EVT.i16
    ∧ (synthOperands EVT.i16 EVT.i16 amRegNode).1 = Operand.node (.otherNode 9)
    ∧ (synthOperands EVT.i16 EVT.i16 amGV).2 = Operand.targetGlobalAddress 4 EVT.i16 amGV.disp
    ∧ (synthOperands EVT.i16 EVT.i16 amCP).2
        = Operand.targetConstantPool 2 EVT.i16 amCP.align amCP.disp
    ∧ (synthOperands EVT.i16 EVT.i16 amES).2 = Operand.targetExternalSymbol "sym" EVT.i16
    ∧ (synthOperands EVT.i16 EVT.i16 amJT).2 = Operand.targetJumpTable amJT.jt EVT.i16
    ∧ (synthOperands EVT.i16 EVT.i16 amBA).2 = Operand.blockAddress 8 EVT.i32
    ∧ (synthOperands EVT.i16 EVT.i16 initAM).2 = Operand.targetConstant initAM.disp EVT.i16 :=
  ⟨(c6_synthesize_operands EVT.i16 EVT.i16 amFrame5).1.1 rfl,
   (c6_synthesize_operands EVT.i16 EVT.i16 initAM).1.2.1 rfl rfl,
   (c6_synthesize_operands EVT.i16 EVT.i16 amRegNode).1.2.2 (.otherNode 9) rfl rfl,
   (c6_synthesize_operands EVT.i16 EVT.i16 amGV).2.1 4 rfl,
   (c6_synthesize_operands EVT.i16 EVT.i16 amCP).2.2.1 2 rfl rfl,
   (c6_synthesize_operands EVT.i16 EVT.i16 amES).2.2.2.1 "sym" rfl rfl rfl,
   (c6_synthesize_operands EVT.i16 EVT.i16 amJT).2.2.2.2.1 rfl rfl rfl (by decide),
   (c6_synthesize_operands EVT.i16 EVT.i16 amBA).2.2.2.2.2.1 8 rfl rfl rfl rfl rfl,
   (c6_synthesize_operands EVT.i16 EVT.i16 initAM).2.2.2.2.2.2 rfl rfl rfl rfl rfl⟩

/-- Claim C7: `MatchAddress` never fails when the incoming mode's base is
uncommitted; hence `SelectAddr`, which always starts from the fresh empty
mode, never fails, and the match-failure branch for constraint code `m`
in `SelectInlineAsmMemoryOperand` is unreachable. -/
theorem c7_match_always_succeeds (mvz : SDNode → Int → Bool) (ptrTy vt : EVT) :
    (∀ (n : SDNode) (am : AddressMode),
        am.baseType = BaseType.RegBase → am.baseReg = none →
        (matchAddress mvz n am).1 = false)
    ∧ (∀ n : SDNode, selectAddr mvz ptrTy vt n ≠ none)
    ∧ (∀ n : SDNode, selectInlineAsmMemoryOperand mvz ptrTy vt n 'm' ≠ none) := by
  have hsel : ∀ n : SDNode, selectAddr mvz ptrTy vt n ≠ none := by
    intro n
    unfold selectAddr
    have hs := matchAddress_success mvz n initAM rfl rfl
    simp [hs]
  refine ⟨fun n am h1 h2 => matchAddress_success mvz n am h1 h2, hsel, ?_⟩
  intro n
  unfold selectInlineAsmMemoryOperand
  cases hv : selectAddr mvz ptrTy vt n with
  | none => exact absurd hv (hsel n)
  | some bd =>
      cases bd with
      | mk b d => simp

/-- Claim C7 witness. -/
theorem c7_match_witness :
    (matchAddress (fun _ _ => false) (.otherNode 0) initAM).1 = false
    ∧ selectAddr (fun _ _ => false) EVT.i16 EVT.i16 (.otherNode 0) ≠ none
    ∧ selectInlineAsmMemoryOperand (fun _ _ => false) EVT.i16 EVT.i16 (.otherNode 0) 'm'
        ≠ none :=
  ⟨(c7_match_always_succeeds (fun _ _ => false) EVT.i16 EVT.i16).1 (.otherNode 0) initAM rfl rfl,
   (c7_match_always_succeeds (fun _ _ => false) EVT.i16 EVT.i16).2.1 (.otherNode 0),
   (c7_match_always_succeeds (fun _ _ => false) EVT.i16 EVT.i16).2.2 (.otherNode 0)⟩

/-- Claim C8: the inline-assembly adapter supports only constraint code
`m`: every other code fails immediately (for any oracle and any node, so
no match is consulted); on `m` it returns exactly `[base, displacement]`
from `SelectAddr` when the match succeeds, and propagates failure
otherwise — the second conjunct is the full equation covering both. -/
theorem c8_inline_asm_adapter (mvz : SDNode → Int → Bool) (ptrTy vt : EVT) :
    (∀ (c : Char) (op : SDNode), c ≠ 'm' →
      selectInlineAsmMemoryOperand mvz ptrTy vt op c = none)
    ∧ (∀ op : SDNode,
        selectInlineAsmMemoryOperand mvz ptrTy vt op 'm'
          = match selectAddr mvz ptrTy vt op with
            | none => none
            | some (b, d) => some [b, d])
    ∧ (∀ (op : SDNode) (b d : Operand), selectAddr mvz ptrTy vt op = some (b, d) →
        selectInlineAsmMemoryOperand mvz ptrTy vt op 'm' = some [b, d]) := by
  refine ⟨?_, fun op => rfl, ?_⟩
  · intro c op h
    unfold selectInlineAsmMemoryOperand
    split
    · exact absurd rfl h
    · rfl
  · intro op b d h
    simp [selectInlineAsmMemoryOperand, h]

/-- Claim C8 witness: constraint `g` fails without consulting the matcher;
constraint `m` on `Constant 5` yields the zero-register base and the
numeric displacement 5. -/
theorem c8_inline_asm_witness :
    selectInlineAsmMemoryOperand (fun _ _ => false) EVT.i16 EVT.i16 (.constant 5) 'g' = none
    ∧ selectInlineAsmMemoryOperand (fun _ _ => false) EVT.i16 EVT.i16 (.constant 5) 'm'
        = some [Operand.reg 0 EVT.i16, Operand.targetConstant 5 EVT.i16] :=
  ⟨(c8_inline_asm_adapter (fun _ _ => false) EVT.i16 EVT.i16).1 'g' (.constant 5) (by decide),
   (c8_inline_asm_adapter (fun _ _ => false) EVT.i16 EVT.i16).2.2 (.constant 5)
      (Operand.reg 0 EVT.i16) (Operand.targetConstant 5 EVT.i16) (by decide)⟩

/-- Claim C9: the node selector leaves machine-form nodes unchanged
(returns null); a stack-slot-reference node of type i16 becomes an
`ADD16ri` machine node over the target frame reference with immediate 0 —
morphed in place (`SelectNodeTo`) when the node has exactly one use, and
freshly allocated (`getMachineNode`) when it has several. -/
theorem c9_select_stack_slot (fi : Int) (op : Nat) (u : Bool) :
    select (.frameIndex fi .i16) true
      = some (.reused .ADD16ri .i16
          [.targetFrameIndex fi .i16, .targetConstant 0 .i16])
    ∧ select (.frameIndex fi .i16) false
      = some (.allocated .ADD16ri .i16
          [.targetFrameIndex fi .i16, .targetConstant 0 .i16])
    ∧ select (.machine op) u = some .unchanged :=
  ⟨rfl, rfl, rfl⟩

/-- Claim C10: folding a fully-constant subtree is deterministic and
context-independent — two matches of the same subtree from the same
starting mode, even under different bit-analysis oracles, produce
bit-identical results, namely success with the wrapped constant sum added
to the displacement and every other field untouched. -/
theorem c10_const_fold_idempotent (mvz1 mvz2 : SDNode → Int → Bool) (n : SDNode)
    (am : AddressMode) (h : constAddOnly n = true) :
    matchAddress mvz1 n am = matchAddress mvz2 n am
    ∧ matchAddress mvz1 n am
      = (false, { am with disp := toInt16 (am.disp + sumConsts n) }) := by
  have k1 := matchAddress_constAddOnly mvz1 n am h
  have k2 := matchAddress_constAddOnly mvz2 n am h
  exact ⟨k1.trans k2.symm, k1⟩

/-- Claim C10 witness. -/
theorem c10_const_fold_witness :
    constAddOnly (.add (.constant 1) (.constant 2)) = true
    ∧ matchAddress (fun _ _ => false) (.add (.constant 1) (.constant 2)) initAM
        = matchAddress (fun _ _ => true) (.add (.constant 1) (.constant 2)) initAM
    ∧ matchAddress (fun _ _ => false) (.add (.constant 1) (.constant 2)) initAM
        = (false, { initAM with
            disp := toInt16 (initAM.disp + sumConsts (.add (.constant 1) (.constant 2))) }) :=
  ⟨by decide,
   (c10_const_fold_idempotent (fun _ _ => false) (fun _ _ => true)
      (.add (.constant 1) (.constant 2)) initAM (by decide)).1,
   (c10_const_fold_idempotent (fun _ _ => false) (fun _ _ => true)
      (.add (.constant 1) (.constant 2)) initAM (by decide)).2⟩

end MapipISel
